import Mathlib

/-
  Verification of the IMX283 V4L2 driver control-plane.

  Shallow embedding of the driver's C sources into Lean:
  machine integers are modelled as Nat with explicit wrap-around
  (mod 2^64 / mod 2^32) at the points where the C code performs
  unsigned fixed-width arithmetic; bus I/O is modelled by an explicit
  transaction trace together with a transport oracle that decides the
  outcome of each transaction.
-/

/-! ## Fixed-width arithmetic helpers -/

/-- Truncation of a natural number to an unsigned 64-bit value. -/
def wrap64 (x : Nat) : Nat := x % 2 ^ 64

/-- Truncation of a natural number to an unsigned 32-bit value. -/
def wrap32 (x : Nat) : Nat := x % 2 ^ 32

/-- Unsigned 64-bit subtraction with wrap-around, for arguments already
reduced mod 2 to the 64. -/
def sub64 (a b : Nat) : Nat := (a + 2 ^ 64 - b % 2 ^ 64) % 2 ^ 64

theorem wrap64_eq_of_lt {x : Nat} (h : x < 2 ^ 64) : wrap64 x = x :=
  Nat.mod_eq_of_lt h

theorem wrap32_eq_of_lt {x : Nat} (h : x < 2 ^ 32) : wrap32 x = x :=
  Nat.mod_eq_of_lt h

theorem sub64_eq_sub {a b : Nat} (hba : b ≤ a) (ha : a < 2 ^ 64) :
    sub64 a b = a - b := by
  unfold sub64
  omega

/-! ## Timing Calculator

Translated from the driver source (part_001, calculate_v4l2_cid_exposure,
calculate_min_max_v4l2_cid_exposure, calculate_shr).  All five parameters
of calculate_v4l2_cid_exposure are u64 in C; the final clamp_t(uint32_t, n,
0, 0xFFFFFFFF) first casts to uint32_t (a mod 2^32 truncation) and then
clamps, which is the identity on a 32-bit value. -/

/-- C source:
    numerator = (vmax * (svr + 1) - shr) * hmax + offset;
    do_div(numerator, hmax);
    numerator = clamp_t(uint32_t, numerator, 0, 0xFFFFFFFF);
    return numerator; -/
def calculate_v4l2_cid_exposure (hmax vmax shr svr offset : Nat) : Nat :=
  let numerator := wrap64 (wrap64 (sub64 (wrap64 (vmax * wrap64 (svr + 1))) shr * hmax) + offset)
  let numerator := numerator / hmax
  min (max (wrap32 numerator) 0) 0xFFFFFFFF

/-- C source:
    u64 max_shr = (svr + 1) * vmax - 4;
    max_shr = min_t(uint64_t, max_shr, 0xFFFF);
    min_exposure = calculate_v4l2_cid_exposure(hmax, vmax, max_shr, svr, offset);
    max_exposure = calculate_v4l2_cid_exposure(hmax, vmax, min_shr, svr, offset); -/
def calculate_min_max_v4l2_cid_exposure (hmax vmax min_shr svr offset : Nat) :
    Nat × Nat :=
  let max_shr := sub64 (wrap64 (wrap64 (svr + 1) * vmax)) 4
  let max_shr := min max_shr 0xFFFF
  (calculate_v4l2_cid_exposure hmax vmax max_shr svr offset,
   calculate_v4l2_cid_exposure hmax vmax min_shr svr offset)

/-- C source (exposure, hmax, svr, offset are uint32_t; vmax is uint64_t):
    temp = ((uint64_t)exposure * hmax - offset);
    do_div(temp, hmax);
    shr = (uint32_t)(vmax * (svr + 1) - temp); -/
def calculate_shr (exposure hmax vmax svr offset : Nat) : Nat :=
  let temp := sub64 (wrap64 (exposure * hmax)) offset
  let temp := temp / hmax
  wrap32 (sub64 (wrap64 (vmax * wrap32 (svr + 1))) temp)

/-- Closed form of the exposure computation when no wrap-around occurs:
integer division truncates the sub-line offset down to offset / hmax. -/
theorem calculate_exposure_closed (hmax vmax shr svr offset : Nat)
    (hh : 0 < hmax) (hm : hmax < 2 ^ 32) (ho : offset < 2 ^ 32)
    (hsvr : svr + 1 < 2 ^ 32)
    (hs : shr ≤ vmax * (svr + 1))
    (hfit : vmax * (svr + 1) + offset / hmax < 2 ^ 32) :
    calculate_v4l2_cid_exposure hmax vmax shr svr offset
      = vmax * (svr + 1) - shr + offset / hmax := by
  have hvs : vmax * (svr + 1) < 2 ^ 32 :=
    Nat.lt_of_le_of_lt (Nat.le_add_right _ _) hfit
  have h1 : wrap64 (svr + 1) = svr + 1 :=
    wrap64_eq_of_lt (by omega)
  have h2 : wrap64 (vmax * wrap64 (svr + 1)) = vmax * (svr + 1) := by
    rw [h1]; exact wrap64_eq_of_lt (by omega)
  have h3 : sub64 (vmax * (svr + 1)) shr = vmax * (svr + 1) - shr :=
    sub64_eq_sub hs (by omega)
  have hd : vmax * (svr + 1) - shr < 2 ^ 32 := by omega
  have hd' : (vmax * (svr + 1) - shr) * hmax ≤ (2 ^ 32 - 1) * (2 ^ 32 - 1) :=
    Nat.mul_le_mul (by omega) (by omega)
  have h4 : (vmax * (svr + 1) - shr) * hmax < 2 ^ 64 := by omega
  have h5 : (vmax * (svr + 1) - shr) * hmax + offset < 2 ^ 64 := by omega
  have hq : ((vmax * (svr + 1) - shr) * hmax + offset) / hmax
      = vmax * (svr + 1) - shr + offset / hmax := by
    rw [Nat.mul_comm (vmax * (svr + 1) - shr) hmax]
    exact Nat.mul_add_div hh _ _
  have hqlt : vmax * (svr + 1) - shr + offset / hmax < 2 ^ 32 :=
    Nat.lt_of_le_of_lt (Nat.add_le_add_right (Nat.sub_le _ _) _) hfit
  simp only [calculate_v4l2_cid_exposure]
  rw [h2, h3, wrap64_eq_of_lt h4, wrap64_eq_of_lt h5, hq,
    wrap32_eq_of_lt hqlt]
  rw [Nat.max_eq_left (Nat.zero_le _)]
  exact Nat.min_eq_left (by omega)

/-- Closed form of the inverse SHR computation when no wrap-around occurs. -/
theorem calculate_shr_closed (exposure hmax vmax svr offset : Nat)
    (_hh : 0 < hmax) (hm : hmax < 2 ^ 32) (he : exposure < 2 ^ 32)
    (hsvr : svr + 1 < 2 ^ 32)
    (hoe : offset ≤ exposure * hmax)
    (hvs : vmax * (svr + 1) < 2 ^ 32)
    (ht : (exposure * hmax - offset) / hmax ≤ vmax * (svr + 1)) :
    calculate_shr exposure hmax vmax svr offset
      = vmax * (svr + 1) - (exposure * hmax - offset) / hmax := by
  have h0 : exposure * hmax < 2 ^ 64 := by
    calc exposure * hmax < 2 ^ 32 * 2 ^ 32 := Nat.mul_lt_mul_of_lt_of_lt he hm
      _ = 2 ^ 64 := by norm_num
  have h1 : wrap32 (svr + 1) = svr + 1 := wrap32_eq_of_lt hsvr
  have h2 : wrap64 (vmax * wrap32 (svr + 1)) = vmax * (svr + 1) := by
    rw [h1]; exact wrap64_eq_of_lt (by omega)
  simp only [calculate_shr]
  rw [wrap64_eq_of_lt h0, sub64_eq_sub hoe h0, h2,
    sub64_eq_sub ht (by omega)]
  exact wrap32_eq_of_lt (Nat.lt_of_le_of_lt (Nat.sub_le _ _) hvs)

/-- Quotient of a near-multiple: subtracting a sub-divisor remainder from a
multiple of hmax drops the quotient by one exactly when the remainder is
nonzero. -/
theorem mul_sub_small_div (d hmax r : Nat) (hh : 0 < hmax) (hd : 1 ≤ d)
    (hr : r < hmax) :
    (d * hmax - r) / hmax = d - (if r = 0 then 0 else 1) := by
  rcases Nat.eq_zero_or_pos r with h0 | hpos
  · subst h0
    simp [Nat.mul_div_cancel _ hh]
  · obtain ⟨k, rfl⟩ := Nat.exists_eq_add_of_le hd
    have hexp : (1 + k) * hmax = hmax * k + hmax := by ring
    have hsplit : (1 + k) * hmax - r = hmax * k + (hmax - r) := by omega
    rw [hsplit, Nat.mul_add_div hh, Nat.div_eq_of_lt (by omega),
      if_neg (Nat.pos_iff_ne_zero.mp hpos)]
    omega

/-- C1 (amended): the SHR round trip is off by one whenever hmax does not
divide offset: composing calculate_v4l2_cid_exposure with calculate_shr
returns SHR when hmax divides offset and SHR + 1 otherwise, for every SHR
in the valid range. -/
theorem c1_shr_roundtrip_amended (hmax vmax shr svr offset : Nat)
    (hh : 0 < hmax) (hm : hmax < 2 ^ 32) (ho : offset < 2 ^ 32)
    (hsvr : svr + 1 < 2 ^ 32)
    (hfit : vmax * (svr + 1) + offset / hmax < 2 ^ 32)
    (hv4 : 4 < vmax * (svr + 1))
    (hrange : shr ≤ min 0xFFFF (vmax * (svr + 1) - 4)) :
    calculate_shr (calculate_v4l2_cid_exposure hmax vmax shr svr offset)
        hmax vmax svr offset
      = shr + (if offset % hmax = 0 then 0 else 1) := by
  have hvs : vmax * (svr + 1) < 2 ^ 32 :=
    Nat.lt_of_le_of_lt (Nat.le_add_right _ _) hfit
  have hs : shr ≤ vmax * (svr + 1) := by omega
  have hd4 : shr + 4 ≤ vmax * (svr + 1) := by omega
  have hexp := calculate_exposure_closed hmax vmax shr svr offset
    hh hm ho hsvr hs hfit
  rw [hexp]
  set d := vmax * (svr + 1) - shr with hdDef
  set q := offset / hmax with hqDef
  set r := offset % hmax with hrDef
  have hr : r < hmax := Nat.mod_lt _ hh
  have hoqr : offset = q * hmax + r := by
    rw [hqDef, hrDef, Nat.mul_comm]
    exact (Nat.div_add_mod offset hmax).symm
  have hd1 : 1 ≤ d := by omega
  have hmul : (d + q) * hmax = d * hmax + q * hmax := by ring
  have hhd : hmax ≤ d * hmax := Nat.le_mul_of_pos_left hmax hd1
  have hoe : offset ≤ (d + q) * hmax := by omega
  have hsub : (d + q) * hmax - offset = d * hmax - r := by omega
  have hdiv : ((d + q) * hmax - offset) / hmax = d - (if r = 0 then 0 else 1) := by
    rw [hsub]
    exact mul_sub_small_div d hmax r hh hd1 hr
  have he : d + q < 2 ^ 32 :=
    Nat.lt_of_le_of_lt (Nat.add_le_add_right (Nat.sub_le _ _) _) hfit
  have ht : ((d + q) * hmax - offset) / hmax ≤ vmax * (svr + 1) := by
    rw [hdiv]
    split <;> omega
  rw [calculate_shr_closed (d + q) hmax vmax svr offset hh hm he hsvr hoe hvs ht,
    hdiv]
  split <;> omega

/-- C1 counterexample: with the driver parameters hmax = 900, vmax = 4000,
svr = 0, offset = 209 and the in-range shr = 12, the round trip returns 13,
not 12, refuting the claim that it returns the original SHR. -/
theorem c1_roundtrip_counterexample :
    4 < 4000 * (0 + 1) ∧ 12 ≤ min 0xFFFF (4000 * (0 + 1) - 4) ∧
    calculate_shr (calculate_v4l2_cid_exposure 900 4000 12 0 209)
        900 4000 0 209 ≠ 12 := by
  refine ⟨by norm_num, by norm_num, ?_⟩
  decide

/-- Witness for the amended C1 round-trip at the driver parameters. -/
theorem c1_shr_roundtrip_amended_witness :
    calculate_shr (calculate_v4l2_cid_exposure 900 4000 12 0 209)
        900 4000 0 209 = 12 + (if 209 % 900 = 0 then 0 else 1) :=
  c1_shr_roundtrip_amended 900 4000 12 0 209 (by norm_num) (by norm_num)
    (by norm_num) (by norm_num) (by norm_num) (by norm_num) (by norm_num)

/-! ## Mode Table

Translated from the driver source (part_001, imx283_active_area,
CENTERED_RECTANGLE, supported_modes_12bit, supported_modes_10bit,
imx283_readout_modes). -/

structure V4l2Rect where
  left : Nat
  top : Nat
  width : Nat
  height : Nat
deriving DecidableEq

def imx283_native_area : V4l2Rect := ⟨0, 0, 5592, 3710⟩

def imx283_active_area : V4l2Rect := ⟨40, 108, 5472, 3648⟩

/-- C macro CENTERED_RECTANGLE(rect, w, h). -/
def centeredRectangle (rect : V4l2Rect) (w h : Nat) : V4l2Rect :=
  ⟨rect.left + (rect.width - w) / 2, rect.top + (rect.height - h) / 2, w, h⟩

def IMX283_MODE_0 : Nat := 0
def IMX283_MODE_1 : Nat := 1
def IMX283_MODE_1A : Nat := 2
def IMX283_MODE_1S : Nat := 3
def IMX283_MODE_2 : Nat := 4
def IMX283_MODE_2A : Nat := 5

structure ImxMode where
  mode : Nat
  bpp : Nat
  width : Nat
  height : Nat
  min_HMAX : Nat
  min_VMAX : Nat
  default_HMAX : Nat
  default_VMAX : Nat
  min_SHR : Nat
  horizontal_ob : Nat
  vertical_ob : Nat
  crop : V4l2Rect
deriving DecidableEq

def imx283_mode_0 : ImxMode :=
  { mode := IMX283_MODE_0, bpp := 12, width := 5472 + 96, height := 3648 + 16,
    min_HMAX := 887, min_VMAX := 3793, default_HMAX := 900,
    default_VMAX := 4000, min_SHR := 12, horizontal_ob := 96,
    vertical_ob := 16, crop := centeredRectangle imx283_active_area 5472 3648 }

def imx283_mode_2 : ImxMode :=
  { mode := IMX283_MODE_2, bpp := 12, width := (5472 + 96) / 2,
    height := (3648 + 8) / 2,
    min_HMAX := 362, min_VMAX := 3840, default_HMAX := 375,
    default_VMAX := 3840, min_SHR := 12, horizontal_ob := 96 / 2,
    vertical_ob := 8 / 2, crop := centeredRectangle imx283_active_area 5472 3648 }

def imx283_mode_1 : ImxMode :=
  { mode := IMX283_MODE_1, bpp := 10, width := 5472 + 96, height := 3648 + 16,
    min_HMAX := 745, min_VMAX := 3793, default_HMAX := 750,
    default_VMAX := 3840, min_SHR := 12, horizontal_ob := 96,
    vertical_ob := 16, crop := centeredRectangle imx283_active_area 5472 3648 }

def imx283_mode_1a : ImxMode :=
  { mode := IMX283_MODE_1A, bpp := 10, width := 5472 + 96,
    height := 3078 + 16,
    min_HMAX := 745, min_VMAX := 3203, default_HMAX := 750,
    default_VMAX := 3840, min_SHR := 12, horizontal_ob := 96,
    vertical_ob := 16, crop := centeredRectangle imx283_active_area 5472 3078 }

def supported_modes_12bit : List ImxMode := [imx283_mode_0, imx283_mode_2]

def supported_modes_10bit : List ImxMode := [imx283_mode_1, imx283_mode_1a]

/-- Exposure bounds are ordered whenever the minimum SHR is at most both
0xFFFF and vmax minus 4, with the driver parameters svr = 0, offset = 209. -/
theorem minmax_exposure_le (hmax vmax min_shr : Nat) (hh : 0 < hmax)
    (hhm : hmax ≤ 0xFFFF) (hv2 : vmax ≤ 0xFFFFF)
    (hms : min_shr ≤ 0xFFFF) (hms4 : min_shr + 4 ≤ vmax) :
    (calculate_min_max_v4l2_cid_exposure hmax vmax min_shr 0 209).1
      ≤ (calculate_min_max_v4l2_cid_exposure hmax vmax min_shr 0 209).2 := by
  have hm32 : hmax < 2 ^ 32 := by omega
  have e0 : wrap64 (wrap64 (0 + 1) * vmax) = vmax := by
    have : wrap64 (0 + 1) = 1 := by norm_num [wrap64]
    rw [this, Nat.one_mul]
    exact wrap64_eq_of_lt (by omega)
  have e1 : sub64 vmax 4 = vmax - 4 := sub64_eq_sub (by omega) (by omega)
  have hfit : vmax * (0 + 1) + 209 / hmax < 2 ^ 32 := by
    have : 209 / hmax ≤ 209 := Nat.div_le_self _ _
    omega
  have hS : min (vmax - 4) 0xFFFF ≤ vmax * (0 + 1) := by omega
  have hminshr : min_shr ≤ vmax * (0 + 1) := by omega
  simp only [calculate_min_max_v4l2_cid_exposure, e0, e1]
  rw [calculate_exposure_closed hmax vmax _ 0 209 hh hm32 (by norm_num)
      (by norm_num) hS hfit,
    calculate_exposure_closed hmax vmax _ 0 209 hh hm32 (by norm_num)
      (by norm_num) hminshr hfit]
  have hle : min_shr ≤ min (vmax - 4) 0xFFFF := by omega
  exact Nat.add_le_add_right (Nat.sub_le_sub_left hle _) _

/-- C9: for every mode in the two catalogs, with the driver parameters
svr = 0, offset = 209, every vmax reachable from a VBlank update (between
the mode minimum VMAX and the 20-bit VMAX limit) and every nonzero 16-bit
hmax, the recomputed exposure bounds satisfy min_exposure at most
max_exposure. -/
theorem c9_exposure_bounds (m : ImxMode)
    (hmem : m ∈ supported_modes_12bit ++ supported_modes_10bit)
    (hmax vmax : Nat) (hh : 0 < hmax) (hhm : hmax ≤ 0xFFFF)
    (hv1 : m.min_VMAX ≤ vmax) (hv2 : vmax ≤ 0xFFFFF) :
    (calculate_min_max_v4l2_cid_exposure hmax vmax m.min_SHR 0 209).1
      ≤ (calculate_min_max_v4l2_cid_exposure hmax vmax m.min_SHR 0 209).2 := by
  have hmem' : m = imx283_mode_0 ∨ m = imx283_mode_2 ∨ m = imx283_mode_1 ∨
      m = imx283_mode_1a := by
    simpa [supported_modes_12bit, supported_modes_10bit] using hmem
  rcases hmem' with rfl | rfl | rfl | rfl <;>
  · simp only [imx283_mode_0, imx283_mode_2, imx283_mode_1,
      imx283_mode_1a] at hv1 ⊢
    exact minmax_exposure_le hmax vmax 12 hh hhm hv2 (by norm_num) (by omega)

/-- Witness for C9 at the first 12-bit mode with its default timing. -/
theorem c9_exposure_bounds_witness :
    (calculate_min_max_v4l2_cid_exposure 900 4000 imx283_mode_0.min_SHR 0 209).1
      ≤ (calculate_min_max_v4l2_cid_exposure 900 4000
          imx283_mode_0.min_SHR 0 209).2 := by
  have hmem : imx283_mode_0 ∈
      supported_modes_12bit ++ supported_modes_10bit := by decide
  exact c9_exposure_bounds imx283_mode_0 hmem 900 4000
    (by norm_num) (by norm_num) (by decide) (by norm_num)

/-! ## Register Codec

Translated from the driver source (part_001, CCI_REG macros, cci_read,
cci_write).  A register token packs the 16-bit address, a 4-bit byte
width at bit 16 and a little-endian flag at bit 20.  Bus transactions are
modelled by an explicit trace of byte strings together with a transport
oracle giving the i2c return value of the n-th transaction. -/

def CCI_REG_ADDR_MASK : Nat := 0xFFFF

def CCI_REG_WIDTH_MASK : Nat := 0xF0000

def CCI_REG_WIDTH_SHIFT : Nat := 16

def CCI_REG_LE : Nat := 0x100000

def CCI_REG8 (x : Nat) : Nat := (1 <<< CCI_REG_WIDTH_SHIFT) ||| x

def CCI_REG16 (x : Nat) : Nat := (2 <<< CCI_REG_WIDTH_SHIFT) ||| x

def CCI_REG24 (x : Nat) : Nat := (3 <<< CCI_REG_WIDTH_SHIFT) ||| x

def CCI_REG16_LE (x : Nat) : Nat := CCI_REG_LE ||| (2 <<< CCI_REG_WIDTH_SHIFT) ||| x

def CCI_REG24_LE (x : Nat) : Nat := CCI_REG_LE ||| (3 <<< CCI_REG_WIDTH_SHIFT) ||| x

/-- Width field of a register token: (reg and CCI_REG_WIDTH_MASK)
shifted right by CCI_REG_WIDTH_SHIFT. -/
def regWidth (reg : Nat) : Nat := (reg &&& CCI_REG_WIDTH_MASK) >>> CCI_REG_WIDTH_SHIFT

/-- Address field of a register token. -/
def regAddr (reg : Nat) : Nat := reg &&& CCI_REG_ADDR_MASK

/-- Little-endian flag of a register token. -/
def regIsLE (reg : Nat) : Bool := reg &&& CCI_REG_LE != 0

/-- The value-byte store loop of cci_write:
    for (i = 0; i < width; i++)
      if (is_le) buf[2 + i] = (val >> (8 * i)) & 0xff;
      else       buf[2 + width - 1 - i] = (val >> (8 * i)) & 0xff;
The fuel argument counts the remaining iterations, so the loop index is
i = width - fuel. -/
def writeDataLoop (is_le : Bool) (width val : Nat) : Nat → List Nat → List Nat
  | 0, buf => buf
  | n + 1, buf =>
      let i := width - (n + 1)
      let buf := buf.set (if is_le then 2 + i else 2 + width - 1 - i)
        ((val >>> (8 * i)) &&& 0xFF)
      writeDataLoop is_le width val n buf

/-- The byte string cci_write hands to i2c_master_send: a 10-byte stack
buffer whose first two bytes are the big-endian address, filled by the
value loop, of which 2 + width bytes are transmitted. -/
def cci_write_buf (reg val : Nat) : List Nat :=
  let reg_addr := regAddr reg
  let width := regWidth reg
  let buf : List Nat :=
    [(reg_addr >>> 8) &&& 0xFF, reg_addr &&& 0xFF, 0, 0, 0, 0, 0, 0, 0, 0]
  (writeDataLoop (regIsLE reg) width val width buf).take (2 + width)

/-- The little-endian byte sequence of a value: byte i is
(val >> (8 * i)) & 0xff. -/
def valueBytesLE (width val : Nat) : List Nat :=
  (List.range width).map (fun i => (val >>> (8 * i)) &&& 0xFF)

/-- The accumulation loop of cci_read:
    for (i = 0; i < width; i++) val = (val << 8) | data_buf[i];
performed in u64 arithmetic. -/
def cci_read_decode (bytes : List Nat) : Nat :=
  bytes.foldl (fun v b => wrap64 ((v <<< 8) ||| b)) 0

/-- Model of cci_write over a transaction trace.  The C function performs
no width validation and no check of the error slot on entry: it always
builds the buffer and calls i2c_master_send; a negative transport result
is stored in the slot (when one is passed) and returned, and success
returns 0 leaving the slot untouched. -/
def cci_write (tr : Nat → Int) (st : List (List Nat)) (reg val : Nat)
    (err : Option Int) : Int × List (List Nat) × Option Int :=
  let buf := cci_write_buf reg val
  let ret := tr st.length
  let st' := st ++ [buf]
  if ret < 0 then (ret, st', if err.isSome then some ret else err)
  else (0, st', err)

/-- Body of cci_read after the error-slot entry check: width validation
happens before any bus transaction; on transport failure (i2c_transfer
result other than 2) the slot is set to -EIO; on success the value is the
big-endian accumulation of the first width bytes supplied by the read
oracle. -/
def cci_read_go (tr : Nat → Int) (rdata : Nat → List Nat)
    (st : List (List Nat)) (reg : Nat) (err : Option Int) :
    Int × List (List Nat) × Option Int × Option Nat :=
  let width := regWidth reg
  if width = 0 ∨ 8 < width then
    (-22, st, if err.isSome then some (-22) else err, none)
  else
    let ret := tr st.length
    let data := rdata st.length
    let st' := st ++ [[(regAddr reg >>> 8) &&& 0xFF, regAddr reg &&& 0xFF]]
    if ret ≠ 2 then (-5, st', if err.isSome then some (-5) else err, none)
    else
      (0, st', err,
       some (cci_read_decode ((List.range width).map (fun i => data.getD i 0))))

/-- Model of cci_read: unlike cci_write it checks the shared error slot on
entry (if (err and *err) return *err) before doing anything else. -/
def cci_read (tr : Nat → Int) (rdata : Nat → List Nat)
    (st : List (List Nat)) (reg : Nat) (err : Option Int) :
    Int × List (List Nat) × Option Int × Option Nat :=
  match err with
  | some e => if e ≠ 0 then (e, st, err, none) else cci_read_go tr rdata st reg err
  | none => cci_read_go tr rdata st reg err

/-- Characterization of the serialized write buffer for widths 1..8:
big-endian 2-byte address, then the value bytes, low-to-high if the token
is tagged little-endian and high-to-low otherwise. -/
theorem cci_write_buf_eq (reg val : Nat) (h1 : 1 ≤ regWidth reg)
    (h8 : regWidth reg ≤ 8) :
    cci_write_buf reg val
      = ((regAddr reg >>> 8) &&& 0xFF) :: (regAddr reg &&& 0xFF) ::
          (if regIsLE reg then valueBytesLE (regWidth reg) val
           else (valueBytesLE (regWidth reg) val).reverse) := by
  obtain ⟨w, hwdef⟩ : ∃ w, regWidth reg = w := ⟨_, rfl⟩
  rw [hwdef] at h1 h8
  simp only [cci_write_buf, valueBytesLE, hwdef]
  interval_cases w <;> cases hle : regIsLE reg <;> rfl

/-- Masking with 0xFF is reduction mod 256. -/
theorem and_255 (x : Nat) : x &&& 0xFF = x % 256 := by
  have h := Nat.and_pow_two_sub_one_eq_mod x 8
  norm_num at h
  exact h

/-- One step of the big-endian accumulation: shifting in one byte below an
accumulator that still has head-room. -/
theorem decode_step (v b : Nat) (hb : b < 256) (hv : v < 2 ^ 56) :
    wrap64 ((v <<< 8) ||| b) = v * 256 + b := by
  have h256 : (256 : Nat) = 2 ^ 8 := by norm_num
  have hor : 2 ^ 8 * v + b = 2 ^ 8 * v ||| b :=
    Nat.mul_add_lt_is_or (by omega) v
  rw [Nat.shiftLeft_eq, Nat.mul_comm v (2 ^ 8), ← hor]
  exact wrap64_eq_of_lt (by norm_num; omega)

/-- Folding the big-endian accumulation over the reversed little-endian
byte list of a value recovers the value modulo the width, shifted under
the accumulator. -/
theorem decode_aux (w : Nat) (hw : w ≤ 8) :
    ∀ val acc : Nat, acc < 2 ^ (64 - 8 * w) →
    List.foldl (fun v b => wrap64 ((v <<< 8) ||| b)) acc
        ((valueBytesLE w val).reverse)
      = acc * 2 ^ (8 * w) + val % 2 ^ (8 * w) := by
  induction w with
  | zero => intro val acc _; simp [valueBytesLE, Nat.mod_one]
  | succ n ih =>
      intro val acc hacc
      have hrev : (valueBytesLE (n + 1) val).reverse
          = ((val >>> (8 * n)) &&& 0xFF) :: (valueBytesLE n val).reverse := by
        simp [valueBytesLE, List.range_succ]
      have hb : (val >>> (8 * n)) &&& 0xFF < 256 := by
        rw [and_255]; exact Nat.mod_lt _ (by norm_num)
      have hn8 : n ≤ 8 := by omega
      have hpow : (2 : Nat) ^ (64 - 8 * (n + 1)) * 256 = 2 ^ (64 - 8 * n) := by
        have h1 : 64 - 8 * (n + 1) + 8 = 64 - 8 * n := by omega
        have h2 : (256 : Nat) = 2 ^ 8 := by norm_num
        rw [h2, ← pow_add, h1]
      have hacc' : acc * 256 + ((val >>> (8 * n)) &&& 0xFF) < 2 ^ (64 - 8 * n) := by
        have h2 : (acc + 1) * 256 ≤ 2 ^ (64 - 8 * (n + 1)) * 256 :=
          Nat.mul_le_mul_right _ hacc
        omega
      have hv56 : acc < 2 ^ 56 := by
        have : (2 : Nat) ^ (64 - 8 * (n + 1)) ≤ 2 ^ 56 :=
          Nat.pow_le_pow_right (by norm_num) (by omega)
        omega
      rw [hrev, List.foldl_cons, decode_step acc _ hb hv56, ih hn8 val _ hacc']
      have hsplit : val % (2 ^ (8 * n) * 2 ^ 8)
          = val % 2 ^ (8 * n) + 2 ^ (8 * n) * (val / 2 ^ (8 * n) % 2 ^ 8) :=
        Nat.mod_mul
      have hpow' : (2 : Nat) ^ (8 * (n + 1)) = 2 ^ (8 * n) * 2 ^ 8 := by
        rw [← pow_add]; ring_nf
      rw [and_255, Nat.shiftRight_eq_div_pow, hpow', hsplit]
      have h256 : (256 : Nat) = 2 ^ 8 := by norm_num
      rw [h256]
      ring

/-- Decoding the big-endian byte serialization of a value that fits in the
width recovers the value. -/
theorem decode_be (w val : Nat) (hw : w ≤ 8) (hval : val < 2 ^ (8 * w)) :
    cci_read_decode ((valueBytesLE w val).reverse) = val := by
  unfold cci_read_decode
  rw [decode_aux w hw val 0 (Nat.pos_pow_of_pos _ (by norm_num)),
    Nat.mod_eq_of_lt hval]
  ring

/-- C3: for widths 1 to 8 a register write serializes exactly 2 + width
bytes: the 2-byte big-endian address followed by the value bytes, emitted
low-to-high when the token carries the little-endian tag and high-to-low
otherwise; the address bytes are big-endian in both cases. -/
theorem c3_write_serialization (reg val : Nat) (h1 : 1 ≤ regWidth reg)
    (h8 : regWidth reg ≤ 8) :
    (cci_write_buf reg val).length = 2 + regWidth reg ∧
    cci_write_buf reg val
      = ((regAddr reg >>> 8) &&& 0xFF) :: (regAddr reg &&& 0xFF) ::
          (if regIsLE reg then valueBytesLE (regWidth reg) val
           else (valueBytesLE (regWidth reg) val).reverse) := by
  refine ⟨?_, cci_write_buf_eq reg val h1 h8⟩
  rw [cci_write_buf_eq reg val h1 h8]
  cases regIsLE reg <;> simp [valueBytesLE] <;> omega

/-- Witness for C3 at the 24-bit little-endian VMAX register. -/
theorem c3_write_serialization_witness :
    (cci_write_buf (CCI_REG24_LE 0x3038) 4000).length
        = 2 + regWidth (CCI_REG24_LE 0x3038) ∧
    cci_write_buf (CCI_REG24_LE 0x3038) 4000
      = ((regAddr (CCI_REG24_LE 0x3038) >>> 8) &&& 0xFF) ::
          (regAddr (CCI_REG24_LE 0x3038) &&& 0xFF) ::
          (if regIsLE (CCI_REG24_LE 0x3038) then
            valueBytesLE (regWidth (CCI_REG24_LE 0x3038)) 4000
           else (valueBytesLE (regWidth (CCI_REG24_LE 0x3038)) 4000).reverse) :=
  c3_write_serialization (CCI_REG24_LE 0x3038) 4000 (by decide) (by decide)

/-- C6 (amended): the encode-decode round trip holds for big-endian
tokens of every width 1..8; cci_read always accumulates big-endian, so for
little-endian tokens of width at least 2 it returns the byte-reversed
value instead. -/
theorem c6_roundtrip_amended (reg val : Nat) (h1 : 1 ≤ regWidth reg)
    (h8 : regWidth reg ≤ 8) (hbe : regIsLE reg = false)
    (hval : val < 2 ^ (8 * regWidth reg)) :
    cci_read_decode ((cci_write_buf reg val).drop 2) = val := by
  rw [cci_write_buf_eq reg val h1 h8, hbe]
  simp only [Bool.false_eq_true, if_false, List.drop_succ_cons, List.drop_zero]
  exact decode_be _ _ h8 hval

/-- C6 counterexample: for the little-endian 16-bit HMAX token, encoding
the in-range value 256 and decoding it back yields 1, not 256. -/
theorem c6_roundtrip_counterexample :
    (256 : Nat) < 2 ^ (8 * regWidth (CCI_REG16_LE 0x3036)) ∧
    cci_read_decode ((cci_write_buf (CCI_REG16_LE 0x3036) 256).drop 2) = 1 ∧
    (1 : Nat) ≠ 256 := by
  refine ⟨by decide, by decide, by decide⟩

/-- Witness for the amended C6 at a big-endian 16-bit token. -/
theorem c6_roundtrip_amended_witness :
    cci_read_decode ((cci_write_buf (CCI_REG16 0x3000) 0xABCD).drop 2)
      = 0xABCD :=
  c6_roundtrip_amended (CCI_REG16 0x3000) 0xABCD (by decide) (by decide)
    (by decide) (by decide)

/-- C7 (amended): cci_read rejects a token whose width field is outside
1..8 with -EINVAL before any bus access (the transaction trace is
unchanged), for a NULL or clean error slot. -/
theorem c7_read_width_reject (tr : Nat → Int) (rdata : Nat → List Nat)
    (st : List (List Nat)) (reg : Nat) (err : Option Int)
    (hw : regWidth reg = 0 ∨ 8 < regWidth reg)
    (herr : err = none ∨ err = some 0) :
    cci_read tr rdata st reg err
      = (-22, st, err.map (fun _ => (-22 : Int)), none) := by
  rcases herr with rfl | rfl <;>
    simp [cci_read, cci_read_go, hw]

/-- Witness for the amended C7: a width-0 token (a bare address with no
width bits) is rejected by cci_read without touching the bus. -/
theorem c7_read_width_reject_witness :
    cci_read (fun _ => 1) (fun _ => []) [] 0x3000 none
      = (-22, [], none, none) :=
  c7_read_width_reject (fun _ => 1) (fun _ => []) [] 0x3000 none
    (Or.inl (by decide)) (Or.inl rfl)

/-- C7 counterexample: cci_write performs no width validation.  On a
width-0 token it does not return -EINVAL; it sends the two address bytes
on the bus and reports success. -/
theorem c7_write_no_width_check_counterexample :
    regWidth 0x3000 = 0 ∧
    cci_write (fun _ => 1) [] 0x3000 5 none = (0, [[0x30, 0x00]], none) := by
  refine ⟨by decide, by decide⟩

/-! ## Link-frequency bitmap helper

Translated from src/v4l2-link-freq.c, v4l2_link_freq_to_bitmap.  Firmware
frequencies are u64, driver frequencies are s64; the C comparison
fw_link_freqs[i] != driver_link_freqs[j] converts the s64 operand to u64. -/

/-- Conversion of a signed 64-bit value to its unsigned 64-bit image, as
performed by the C usual arithmetic conversions. -/
def u64ofInt (d : Int) : Nat := (d % (2 ^ 64 : Int)).toNat

/-- The inner j-loop of v4l2_link_freq_to_bitmap: index of the first
driver entry equal to the firmware frequency f, if any (the loop breaks at
the first match). -/
def innerFind (f : Nat) : List Int → Option Nat
  | [] => none
  | d :: rest =>
      if f = u64ofInt d then some 0 else (innerFind f rest).map (· + 1)

/-- The outer i-loop: each firmware frequency ORs in the bit of its first
matching driver index. -/
def scanFw : List Nat → List Int → Nat → Nat
  | [], _, bm => bm
  | f :: rest, driver, bm =>
      match innerFind f driver with
      | some j => scanFw rest driver (bm ||| 2 ^ j)
      | none => scanFw rest driver bm

/-- C source: zero the bitmap; an empty firmware list is -ENODATA; a scan
leaving the bitmap zero is -ENOENT; otherwise return 0 with the bitmap. -/
def v4l2_link_freq_to_bitmap (fw : List Nat) (driver : List Int) :
    Int × Nat :=
  if fw.length = 0 then (-61, 0)
  else
    let bitmap := scanFw fw driver 0
    if bitmap = 0 then (-2, 0) else (0, bitmap)

theorem innerFind_none_iff (f : Nat) (l : List Int) :
    innerFind f l = none ↔ ∀ d ∈ l, f ≠ u64ofInt d := by
  induction l with
  | nil => simp [innerFind]
  | cons d rest ih =>
      by_cases h : f = u64ofInt d <;>
        simp [innerFind, h, Option.map_eq_none', ih]

theorem innerFind_some_iff (f : Nat) (l : List Int) (j : Nat) :
    innerFind f l = some j ↔
      (j < l.length ∧ u64ofInt (l.getD j 0) = f ∧
        ∀ k < j, u64ofInt (l.getD k 0) ≠ f) := by
  induction l generalizing j with
  | nil => simp [innerFind]
  | cons d rest ih =>
      by_cases h : f = u64ofInt d
      · simp only [innerFind, if_pos h]
        constructor
        · rintro h0
          injection h0 with h0
          subst h0
          exact ⟨by simp, h.symm, by omega⟩
        · rintro ⟨hj, hval, hlt⟩
          rcases j with _ | j'
          · rfl
          · exact absurd h.symm (hlt 0 (Nat.succ_pos _))
      · simp only [innerFind, if_neg h]
        rcases j with _ | j'
        · simp only [Option.map_eq_some']
          constructor
          · rintro ⟨a, _, ha⟩; omega
          · rintro ⟨_, hval, _⟩
            exact absurd hval.symm h
        · simp only [Option.map_eq_some']
          constructor
          · rintro ⟨a, hfind, ha⟩
            have ha' : a = j' := by omega
            rw [ha'] at hfind
            obtain ⟨h1, h2, h3⟩ := (ih j').mp hfind
            refine ⟨by simpa using h1, by simpa using h2, ?_⟩
            intro k hk
            rcases k with _ | k'
            · simpa using fun hc => h hc.symm
            · simpa using h3 k' (by omega)
          · rintro ⟨h1, h2, h3⟩
            refine ⟨j', (ih j').mpr ⟨by simpa using h1, by simpa using h2, ?_⟩, rfl⟩
            intro k hk
            simpa using h3 (k + 1) (by omega)

theorem scanFw_cons_some (f : Nat) (rest : List Nat) (driver : List Int)
    (bm j : Nat) (hf : innerFind f driver = some j) :
    scanFw (f :: rest) driver bm = scanFw rest driver (bm ||| 2 ^ j) := by
  simp only [scanFw, hf]

theorem scanFw_cons_none (f : Nat) (rest : List Nat) (driver : List Int)
    (bm : Nat) (hf : innerFind f driver = none) :
    scanFw (f :: rest) driver bm = scanFw rest driver bm := by
  simp only [scanFw, hf]

theorem scanFw_or (fw : List Nat) (driver : List Int) :
    ∀ bm, scanFw fw driver bm = bm ||| scanFw fw driver 0 := by
  induction fw with
  | nil => intro bm; simp [scanFw]
  | cons f rest ih =>
      intro bm
      cases hf : innerFind f driver with
      | none => rw [scanFw_cons_none f rest driver bm hf,
          scanFw_cons_none f rest driver 0 hf, ih bm]
      | some j =>
          rw [scanFw_cons_some f rest driver bm j hf,
            scanFw_cons_some f rest driver 0 j hf,
            ih (bm ||| 2 ^ j), ih (0 ||| 2 ^ j), Nat.zero_or,
            Nat.lor_assoc]

theorem lor_two_pow_ne_zero (i s : Nat) : 2 ^ i ||| s ≠ 0 := by
  intro h
  have ht : (2 ^ i ||| s).testBit i = true := by
    rw [Nat.testBit_lor, Nat.testBit_two_pow_self]
    simp
  rw [h, Nat.zero_testBit] at ht
  exact Bool.false_ne_true ht

theorem scanFw_zero_iff (fw : List Nat) (driver : List Int) :
    scanFw fw driver 0 = 0 ↔ ∀ f ∈ fw, innerFind f driver = none := by
  induction fw with
  | nil => simp [scanFw]
  | cons f rest ih =>
      cases hf : innerFind f driver with
      | none =>
          rw [scanFw_cons_none f rest driver 0 hf, ih]
          constructor
          · intro h g hg
            rcases List.mem_cons.mp hg with rfl | hg
            · exact hf
            · exact h g hg
          · intro h g hg; exact h g (List.mem_cons_of_mem _ hg)
      | some j =>
          rw [scanFw_cons_some f rest driver 0 j hf, scanFw_or, Nat.zero_or]
          constructor
          · intro h; exact absurd h (lor_two_pow_ne_zero j _)
          · intro h
            have hc := h f (List.mem_cons_self _ _)
            rw [hf] at hc
            exact absurd hc (by simp)

theorem testBit_scanFw (fw : List Nat) (driver : List Int) (j : Nat) :
    (scanFw fw driver 0).testBit j = true ↔
      ∃ f ∈ fw, innerFind f driver = some j := by
  induction fw with
  | nil => simp [scanFw]
  | cons f rest ih =>
      cases hf : innerFind f driver with
      | none =>
          rw [scanFw_cons_none f rest driver 0 hf, ih]
          constructor
          · rintro ⟨g, hg, hfind⟩; exact ⟨g, List.mem_cons_of_mem _ hg, hfind⟩
          · rintro ⟨g, hg, hfind⟩
            rcases List.mem_cons.mp hg with rfl | hg
            · rw [hf] at hfind; exact absurd hfind (by simp)
            · exact ⟨g, hg, hfind⟩
      | some i =>
          rw [scanFw_cons_some f rest driver 0 i hf, scanFw_or, Nat.zero_or,
            Nat.testBit_lor, Nat.testBit_two_pow]
          constructor
          · intro h
            rcases Bool.or_eq_true_iff.mp h with h | h
            · refine ⟨f, List.mem_cons_self _ _, ?_⟩
              rw [hf, of_decide_eq_true h]
            · obtain ⟨g, hg, hfind⟩ := ih.mp h
              exact ⟨g, List.mem_cons_of_mem _ hg, hfind⟩
          · rintro ⟨g, hg, hfind⟩
            rcases List.mem_cons.mp hg with rfl | hg
            · rw [hf] at hfind
              injection hfind with hij
              subst hij
              simp
            · rw [ih.mpr ⟨g, hg, hfind⟩]
              simp

/-- C2 (amended): the helper zeroes the bitmap and fails with -ENODATA on
an empty firmware list and with -ENOENT when no firmware frequency equals
any driver frequency; otherwise it succeeds and bit j is set iff driver
entry j occurs in the firmware list AND j is the first driver index
carrying that frequency (the inner loop breaks at the first match, so a
duplicated driver entry only ever sets its first index). -/
theorem c2_link_freq_bitmap_amended (fw : List Nat) (driver : List Int) :
    (fw = [] → v4l2_link_freq_to_bitmap fw driver = (-61, 0)) ∧
    (fw ≠ [] → (∀ f ∈ fw, ∀ d ∈ driver, f ≠ u64ofInt d) →
      v4l2_link_freq_to_bitmap fw driver = (-2, 0)) ∧
    (fw ≠ [] → ¬ (∀ f ∈ fw, ∀ d ∈ driver, f ≠ u64ofInt d) →
      (v4l2_link_freq_to_bitmap fw driver).1 = 0 ∧
      ∀ j, ((v4l2_link_freq_to_bitmap fw driver).2.testBit j = true ↔
        j < driver.length ∧ u64ofInt (driver.getD j 0) ∈ fw ∧
          ∀ k < j, u64ofInt (driver.getD k 0) ≠ u64ofInt (driver.getD j 0))) := by
  refine ⟨?_, ?_, ?_⟩
  · rintro rfl
    simp [v4l2_link_freq_to_bitmap]
  · intro hne hdis
    have hnone : ∀ f ∈ fw, innerFind f driver = none := fun f hf =>
      (innerFind_none_iff f driver).mpr (hdis f hf)
    have hzero : scanFw fw driver 0 = 0 := (scanFw_zero_iff fw driver).mpr hnone
    have hlen : fw.length ≠ 0 := by simpa [List.length_eq_zero] using hne
    simp [v4l2_link_freq_to_bitmap, hlen, hzero]
  · intro hne hmatch
    have hlen : fw.length ≠ 0 := by simpa [List.length_eq_zero] using hne
    have hnz : scanFw fw driver 0 ≠ 0 := by
      intro h0
      exact hmatch fun f hf d hd =>
        (innerFind_none_iff f driver).mp
          ((scanFw_zero_iff fw driver).mp h0 f hf) d hd
    have hres : v4l2_link_freq_to_bitmap fw driver = (0, scanFw fw driver 0) := by
      simp [v4l2_link_freq_to_bitmap, hlen, hnz]
    rw [hres]
    refine ⟨rfl, ?_⟩
    intro j
    rw [testBit_scanFw]
    constructor
    · rintro ⟨f, hmem, hfind⟩
      obtain ⟨h1, h2, h3⟩ := (innerFind_some_iff f driver j).mp hfind
      exact ⟨h1, by rw [h2]; exact hmem, fun k hk => by rw [h2]; exact h3 k hk⟩
    · rintro ⟨h1, h2, h3⟩
      exact ⟨u64ofInt (driver.getD j 0), h2,
        (innerFind_some_iff _ driver j).mpr ⟨h1, rfl, h3⟩⟩

/-- C2 counterexample: against the duplicated driver list
[360 MHz, 360 MHz], firmware [360 MHz] yields bitmap 1: driver entry 1
occurs in the firmware list but its bit is not set, refuting the claimed
iff between bit j and membership of driver entry j. -/
theorem c2_link_freq_bitmap_counterexample :
    v4l2_link_freq_to_bitmap [360000000] [360000000, 360000000] = (0, 1) ∧
    Nat.testBit 1 1 = false ∧
    u64ofInt (([360000000, 360000000] : List Int).getD 1 0)
      ∈ ([360000000] : List Nat) := by
  refine ⟨by decide, by decide, by decide⟩

/-- Witness for the amended C2 on the spec example: firmware [360 MHz]
against the driver list [720 MHz, 360 MHz] succeeds. -/
theorem c2_link_freq_bitmap_amended_witness :
    (v4l2_link_freq_to_bitmap [360000000] [720000000, 360000000]).1 = 0 ∧
    ((v4l2_link_freq_to_bitmap [360000000] [720000000, 360000000]).2.testBit 1
        = true ↔
      1 < ([720000000, 360000000] : List Int).length ∧
      u64ofInt (([720000000, 360000000] : List Int).getD 1 0)
          ∈ ([360000000] : List Nat) ∧
      ∀ k < 1, u64ofInt (([720000000, 360000000] : List Int).getD k 0)
          ≠ u64ofInt (([720000000, 360000000] : List Int).getD 1 0)) := by
  have h := (c2_link_freq_bitmap_amended [360000000]
    [720000000, 360000000]).2.2 (by decide) (by decide)
  exact ⟨h.1, h.2 1⟩

/-! ## Bayer-code lookup

Translated from the driver source (part_001, codes, imx283_get_format_code).
The C loop scans the 8-entry codes table; when the argument is absent the
loop leaves i = ARRAY_SIZE(codes) and the final codes[i] access is one
past the end, which the model exposes through an Option-valued access. -/

def MEDIA_BUS_FMT_SRGGB12_1X12 : Nat := 0x3012

def MEDIA_BUS_FMT_SGRBG12_1X12 : Nat := 0x3011

def MEDIA_BUS_FMT_SGBRG12_1X12 : Nat := 0x3010

def MEDIA_BUS_FMT_SBGGR12_1X12 : Nat := 0x3008

def MEDIA_BUS_FMT_SRGGB10_1X10 : Nat := 0x300f

def MEDIA_BUS_FMT_SGRBG10_1X10 : Nat := 0x300a

def MEDIA_BUS_FMT_SGBRG10_1X10 : Nat := 0x300e

def MEDIA_BUS_FMT_SBGGR10_1X10 : Nat := 0x3007

def codes : List Nat :=
  [MEDIA_BUS_FMT_SRGGB12_1X12, MEDIA_BUS_FMT_SGRBG12_1X12,
   MEDIA_BUS_FMT_SGBRG12_1X12, MEDIA_BUS_FMT_SBGGR12_1X12,
   MEDIA_BUS_FMT_SRGGB10_1X10, MEDIA_BUS_FMT_SGRBG10_1X10,
   MEDIA_BUS_FMT_SGBRG10_1X10, MEDIA_BUS_FMT_SBGGR10_1X10]

/-- The search loop of imx283_get_format_code: final value of i, which is
the first matching index or the list length when nothing matches. -/
def findCodeIdx (code : Nat) : List Nat → Nat
  | [] => 0
  | c :: rest => if c = code then 0 else findCodeIdx code rest + 1

/-- Model of imx283_get_format_code: the flip arguments are the device
state the C function receives and ignores; the final array access
codes[i] is modelled with an Option-valued lookup so an out-of-bounds
access is visible as none. -/
def imx283_get_format_code (_hflip _vflip : Bool) (code : Nat) : Option Nat :=
  codes.get? (findCodeIdx code codes)

theorem findCodeIdx_spec (code : Nat) (l : List Nat) :
    (code ∈ l → findCodeIdx code l < l.length ∧
      l.get? (findCodeIdx code l) = some code) ∧
    (code ∉ l → findCodeIdx code l = l.length) := by
  induction l with
  | nil => simp [findCodeIdx]
  | cons c rest ih =>
      by_cases h : c = code
      · subst h
        simp [findCodeIdx]
      · constructor
        · intro hmem
          have hmem' : code ∈ rest := by
            rcases List.mem_cons.mp hmem with rfl | hm
            · exact absurd rfl h
            · exact hm
          obtain ⟨h1, h2⟩ := ih.1 hmem'
          constructor
          · simp only [findCodeIdx, if_neg h, List.length_cons]
            omega
          · simp only [findCodeIdx, if_neg h, List.get?_cons_succ]
            exact h2
        · intro hmem
          have hrest : code ∉ rest := fun hc => hmem (List.mem_cons_of_mem _ hc)
          simp [findCodeIdx, h, ih.2 hrest]

/-- C10: the lookup accesses the codes table in bounds exactly when the
argument occurs in the table, in which case it returns the argument
unchanged regardless of the flip state; for any other argument the loop
index reaches the table length and the final access reads one element
past the end. -/
theorem c10_format_code (code : Nat) (hf vf : Bool) :
    (code ∈ codes → findCodeIdx code codes < codes.length ∧
      imx283_get_format_code hf vf code = some code) ∧
    (code ∉ codes → findCodeIdx code codes = codes.length ∧
      imx283_get_format_code hf vf code = none) := by
  constructor
  · intro h
    obtain ⟨h1, h2⟩ := (findCodeIdx_spec code codes).1 h
    exact ⟨h1, h2⟩
  · intro h
    have he := (findCodeIdx_spec code codes).2 h
    refine ⟨he, ?_⟩
    simp only [imx283_get_format_code, he]
    exact List.get?_eq_none.mpr (Nat.le_refl _)

/-- Witness for C10 at the first 12-bit Bayer code. -/
theorem c10_format_code_witness :
    findCodeIdx MEDIA_BUS_FMT_SRGGB12_1X12 codes < codes.length ∧
    imx283_get_format_code false false MEDIA_BUS_FMT_SRGGB12_1X12
      = some MEDIA_BUS_FMT_SRGGB12_1X12 :=
  (c10_format_code MEDIA_BUS_FMT_SRGGB12_1X12 false false).1 (by decide)

/-! ## Streaming State Machine and batched writes

Translated from the driver source (part_001, register constant macros,
imx283_frequencies, mipi_data_rate tables, cci_multi_reg_write,
imx283_standby_cancel, imx283_start_streaming, imx283_set_stream,
imx283_set_ctrl VBLANK path).  The calls of the form
cci_write(imx283, reg, val, &ret) discard the return value and accumulate
into the shared slot ret; cci_write_acc models exactly that calling
convention.  The control-handler replay at the end of the start sequence
is modelled by an oracle for its return value. -/

def IMX283_REG_STANDBY : Nat := CCI_REG8 0x3000

def IMX283_ACTIVE : Nat := 0

def IMX283_STBLOGIC : Nat := 2

def IMX283_STBDV : Nat := 8

def IMX283_REG_CLAMP : Nat := CCI_REG8 0x3001

def IMX283_CLPSQRST : Nat := 16

def IMX283_REG_PLSTMG08 : Nat := CCI_REG8 0x3003

def IMX283_PLSTMG08_VAL : Nat := 0x77

def IMX283_REG_MDSEL1 : Nat := CCI_REG8 0x3004

def IMX283_REG_MDSEL2 : Nat := CCI_REG8 0x3005

def IMX283_REG_MDSEL3 : Nat := CCI_REG8 0x3006

def IMX283_REG_MDSEL4 : Nat := CCI_REG8 0x3007

def IMX283_REG_SVR : Nat := CCI_REG16_LE 0x3009

def IMX283_REG_HTRIMMING : Nat := CCI_REG8 0x300b

def IMX283_HTRIMMING_EN : Nat := 16

def IMX283_HTRIMMING_RESERVED : Nat := 32

def IMX283_REG_MDSEL7 : Nat := CCI_REG16_LE 0x3013

def IMX283_REG_Y_OUT_SIZE : Nat := CCI_REG16_LE 0x302f

def IMX283_REG_WRITE_VSIZE : Nat := CCI_REG16_LE 0x3031

def IMX283_REG_OB_SIZE_V : Nat := CCI_REG8 0x3033

def IMX283_REG_HMAX : Nat := CCI_REG16_LE 0x3036

def IMX283_REG_VMAX : Nat := CCI_REG24_LE 0x3038

def IMX283_REG_SHR : Nat := CCI_REG16_LE 0x303b

def IMX283_REG_HTRIMMING_START : Nat := CCI_REG16_LE 0x3058

def IMX283_REG_HTRIMMING_END : Nat := CCI_REG16_LE 0x305a

def IMX283_REG_MDSEL18 : Nat := CCI_REG16_LE 0x30f6

def IMX283_REG_XMSTA : Nat := CCI_REG8 0x3105

def IMX283_REG_SYNCDRV : Nat := CCI_REG8 0x3107

def IMX283_SYNCDRV_XHS_XVS : Nat := 0xa0 ||| 0x02

def IMX283_REG_STBPL : Nat := CCI_REG8 0x320b

def IMX283_STBPL_NORMAL : Nat := 0

def IMX283_REG_PLSTMG02 : Nat := CCI_REG8 0x36aa

def IMX283_PLSTMG02_VAL : Nat := 0

def IMX283_REG_PLRD1 : Nat := CCI_REG8 0x36c1

def IMX283_REG_PLRD2 : Nat := CCI_REG16_LE 0x36c2

def IMX283_REG_PLRD3 : Nat := CCI_REG8 0x36f7

def IMX283_REG_PLRD4 : Nat := CCI_REG8 0x36f8

def IMX283_REG_EBD_X_OUT_SIZE : Nat := CCI_REG16_LE 0x3a54

structure ImxInputFrequency where
  mhz : Nat
  regs : List (Nat × Nat)
deriving DecidableEq

def imx283_freq_6 : ImxInputFrequency :=
  ⟨6000000,
   [(IMX283_REG_PLRD1, 0x00), (IMX283_REG_PLRD2, 0x00f0),
    (IMX283_REG_PLRD3, 0x00), (IMX283_REG_PLRD4, 0xc0)]⟩

def imx283_freq_12 : ImxInputFrequency :=
  ⟨12000000,
   [(IMX283_REG_PLRD1, 0x01), (IMX283_REG_PLRD2, 0x00f0),
    (IMX283_REG_PLRD3, 0x01), (IMX283_REG_PLRD4, 0xc0)]⟩

def imx283_freq_18 : ImxInputFrequency :=
  ⟨18000000,
   [(IMX283_REG_PLRD1, 0x01), (IMX283_REG_PLRD2, 0x00a0),
    (IMX283_REG_PLRD3, 0x01), (IMX283_REG_PLRD4, 0x80)]⟩

def imx283_freq_24 : ImxInputFrequency :=
  ⟨24000000,
   [(IMX283_REG_PLRD1, 0x02), (IMX283_REG_PLRD2, 0x00f0),
    (IMX283_REG_PLRD3, 0x02), (IMX283_REG_PLRD4, 0xc0)]⟩

def imx283_frequencies : List ImxInputFrequency :=
  [imx283_freq_6, imx283_freq_12, imx283_freq_18, imx283_freq_24]

/-- All entries of the 1440 Mbps table are compiled out in the source
(the default register settings already provide that rate). -/
def mipi_data_rate_1440Mbps : List (Nat × Nat) := []

def mipi_data_rate_720Mbps : List (Nat × Nat) :=
  [(CCI_REG8 0x36c5, 0x01), (CCI_REG8 0x3ac4, 0x01),
   (CCI_REG8 0x320B, 0x00), (CCI_REG8 0x3018, 0x77),
   (CCI_REG8 0x301A, 0x37), (CCI_REG8 0x301C, 0x67),
   (CCI_REG8 0x301E, 0x37), (CCI_REG8 0x3020, 0x37),
   (CCI_REG8 0x3022, 0x37), (CCI_REG8 0x3024, 0xDF),
   (CCI_REG8 0x3025, 0x00), (CCI_REG8 0x3026, 0x2F),
   (CCI_REG8 0x3028, 0x47), (CCI_REG8 0x302A, 0x0F),
   (CCI_REG8 0x3104, 0x02)]

def link_freq_reglist : List (List (Nat × Nat)) :=
  [mipi_data_rate_1440Mbps, mipi_data_rate_720Mbps]

structure ImxReadoutMode where
  mdsel1 : Nat
  mdsel2 : Nat
  mdsel3 : Nat
  mdsel4 : Nat
deriving DecidableEq

def IMX283_MODE_3 : Nat := 6

def IMX283_MODE_4 : Nat := 7

def IMX283_MODE_5 : Nat := 8

def IMX283_MODE_6 : Nat := 9

def imx283_readout_modes : List ImxReadoutMode :=
  [⟨0x04, 0x03, 0x10, 0x00⟩, ⟨0x04, 0x01, 0x00, 0x00⟩,
   ⟨0x04, 0x01, 0x20, 0x50⟩, ⟨0x04, 0x41, 0x20, 0x50⟩,
   ⟨0x0d, 0x11, 0x50, 0x00⟩, ⟨0x0d, 0x11, 0x70, 0x50⟩,
   ⟨0x1e, 0x18, 0x10, 0x00⟩, ⟨0x29, 0x18, 0x30, 0x50⟩,
   ⟨0x2d, 0x18, 0x10, 0x00⟩, ⟨0x18, 0x21, 0x00, 0x09⟩]

/-- C source of cci_multi_reg_write:
    for (i = 0; i < num_regs; i++) {
      err_slot = cci_write(imx283, regs[i].reg, regs[i].val, err);
      if (err_slot) return err_slot;
    }
    return 0;
Note that the slot receives the return value of each cci_write, so a
successful write stores 0 into the slot, clobbering any earlier error. -/
def cci_multi_reg_write (tr : Nat → Int) :
    List (List Nat) → List (Nat × Nat) → Int → Int × List (List Nat) × Int
  | st, [], err => (0, st, err)
  | st, (r, v) :: rest, err =>
      let w := cci_write tr st r v (some err)
      let err' := w.1
      if err' ≠ 0 then (err', w.2.1, err')
      else cci_multi_reg_write tr w.2.1 rest err'

/-- The calling convention cci_write(imx283, reg, val, &ret) with the
return value discarded: the pair carries the bus trace and the slot. -/
def cci_write_acc (tr : Nat → Int) (p : List (List Nat) × Int)
    (reg val : Nat) : List (List Nat) × Int :=
  let w := cci_write tr p.1 reg val (some p.2)
  (w.2.1, (w.2.2).getD p.2)

/-- The calling convention cci_multi_reg_write(imx283, regs, n, &ret) with
the return value discarded. -/
def cci_multi_acc (tr : Nat → Int) (p : List (List Nat) × Int)
    (regs : List (Nat × Nat)) : List (List Nat) × Int :=
  let w := cci_multi_reg_write tr p.1 regs p.2
  (w.2.1, w.2.2)

/-- Model of imx283_standby_cancel: the source sequence of writes, each
accumulating into the shared ret slot; the stabilization sleeps have no
effect on the trace.  The PLL input-frequency registers and the MIPI link
speed registers of the selected profiles are parameters. -/
def imx283_standby_cancel (tr : Nat → Int) (st : List (List Nat))
    (freqRegs linkRegs : List (Nat × Nat)) : Int × List (List Nat) :=
  let p := (st, (0 : Int))
  let p := cci_write_acc tr p IMX283_REG_STANDBY (IMX283_STBLOGIC ||| IMX283_STBDV)
  let p := cci_multi_acc tr p freqRegs
  let p := cci_write_acc tr p IMX283_REG_PLSTMG08 IMX283_PLSTMG08_VAL
  let p := cci_write_acc tr p IMX283_REG_PLSTMG02 IMX283_PLSTMG02_VAL
  let p := cci_write_acc tr p IMX283_REG_STBPL IMX283_STBPL_NORMAL
  let p := cci_multi_acc tr p linkRegs
  let p := cci_write_acc tr p IMX283_REG_STANDBY IMX283_ACTIVE
  let p := cci_write_acc tr p IMX283_REG_CLAMP IMX283_CLPSQRST
  let p := cci_write_acc tr p IMX283_REG_XMSTA 0
  let p := cci_write_acc tr p IMX283_REG_SYNCDRV IMX283_SYNCDRV_XHS_XVS
  (p.2, p.1)

/-- Model of imx283_start_streaming.  setupRet is the oracle for the
return value of the final control-handler replay, whose own register
writes are outside this model; the C code assigns that return value to
ret, discarding any error accumulated after the readout check. -/
def imx283_start_streaming (tr : Nat → Int) (st : List (List Nat))
    (mode : ImxMode) (freqRegs linkRegs : List (Nat × Nat))
    (setupRet : Int) : Int × List (List Nat) :=
  let r := imx283_standby_cancel tr st freqRegs linkRegs
  if r.1 ≠ 0 then r
  else
    let readout := imx283_readout_modes.getD mode.mode ⟨0, 0, 0, 0⟩
    let p := (r.2, (0 : Int))
    let p := cci_write_acc tr p IMX283_REG_MDSEL1 readout.mdsel1
    let p := cci_write_acc tr p IMX283_REG_MDSEL2 readout.mdsel2
    let p := cci_write_acc tr p IMX283_REG_MDSEL3 readout.mdsel3
    let p := cci_write_acc tr p IMX283_REG_MDSEL4 readout.mdsel4
    let p := if mode.mode = IMX283_MODE_1S then
        let p := cci_write_acc tr p IMX283_REG_MDSEL7 0x01
        cci_write_acc tr p IMX283_REG_MDSEL18 0x1098
      else p
    if p.2 ≠ 0 then (p.2, p.1)
    else
      let p := cci_write_acc tr p IMX283_REG_SVR 0x00
      let p := cci_write_acc tr p IMX283_REG_Y_OUT_SIZE
        (mode.height - mode.vertical_ob)
      let p := cci_write_acc tr p IMX283_REG_WRITE_VSIZE mode.height
      let p := cci_write_acc tr p IMX283_REG_OB_SIZE_V mode.vertical_ob
      let p := cci_write_acc tr p IMX283_REG_HTRIMMING
        (IMX283_HTRIMMING_EN ||| IMX283_HTRIMMING_RESERVED)
      let p := cci_write_acc tr p IMX283_REG_HTRIMMING_START mode.crop.left
      let p := cci_write_acc tr p IMX283_REG_HTRIMMING_END
        (mode.crop.left + mode.crop.width + 1)
      let p := cci_write_acc tr p IMX283_REG_HMAX mode.default_HMAX
      let p := cci_write_acc tr p IMX283_REG_VMAX mode.default_VMAX
      let p := cci_write_acc tr p IMX283_REG_SHR mode.min_SHR
      let p := cci_write_acc tr p IMX283_REG_EBD_X_OUT_SIZE 0
      (setupRet, p.1)

/-- Model of imx283_stop_streaming: a single standby write with a NULL
error pointer; a failure is only logged. -/
def imx283_stop_streaming (tr : Nat → Int) (st : List (List Nat)) :
    Int × List (List Nat) :=
  let w := cci_write tr st IMX283_REG_STANDBY IMX283_STBLOGIC none
  (w.1, w.2.1)

structure DevState where
  streaming : Bool
  bus : List (List Nat)
deriving DecidableEq

/-- Model of imx283_set_stream: a redundant request returns 0 untouched;
on enable, a pm_runtime failure or a start failure returns the error
without setting the streaming flag; otherwise the flag is set.  On
disable the stop result is discarded and the flag is cleared. -/
def imx283_set_stream (tr : Nat → Int) (dev : DevState) (mode : ImxMode)
    (freqRegs linkRegs : List (Nat × Nat)) (pmGetRet setupRet : Int)
    (enable : Bool) : Int × DevState :=
  if dev.streaming = enable then (0, dev)
  else if enable then
    if pmGetRet < 0 then (pmGetRet, dev)
    else
      let r := imx283_start_streaming tr dev.bus mode freqRegs linkRegs setupRet
      if r.1 ≠ 0 then (r.1, { dev with bus := r.2 })
      else (r.1, { streaming := enable, bus := r.2 })
  else
    let r := imx283_stop_streaming tr dev.bus
    (0, { streaming := enable, bus := r.2 })

/-- Model of the V4L2_CID_VBLANK path of imx283_set_ctrl: the local
current_exposure the C code clamps is uninitialized, so it enters the
model as the free parameter uninit_exposure; the result quadruple is
(vmax, min_exposure, max_exposure, value reported to
v4l2_ctrl_modify_range), together with the bus trace (the VMAX register
is written only when the device is powered). -/
def imx283_set_ctrl_vblank (tr : Nat → Int) (st : List (List Nat))
    (mode : ImxMode) (hmax ctrl_val uninit_exposure : Nat)
    (powered : Bool) : (Nat × Nat × Nat × Nat) × List (List Nat) :=
  let vmax := mode.height + ctrl_val
  let mm := calculate_min_max_v4l2_cid_exposure hmax vmax mode.min_SHR 0 209
  let min_exposure := mm.1
  let max_exposure := mm.2
  let current_exposure :=
    min (max (wrap32 uninit_exposure) (wrap32 min_exposure)) (wrap32 max_exposure)
  if !powered then ((vmax, min_exposure, max_exposure, current_exposure), st)
  else
    let w := cci_write tr st IMX283_REG_VMAX vmax none
    ((vmax, min_exposure, max_exposure, current_exposure), w.2.1)

/-- C4 evaluation at the failing input: take the start sequence with the
6 MHz PLL profile and the 720 Mbps MIPI table, and a transport that fails
the very first write (the standby-cancel write) with -EIO.  Because
cci_write never checks the shared slot on entry, every one of the
remaining 26 writes still reaches the bus, and because cci_multi_reg_write
stores each cci_write return into the slot, the first successful PLL write
overwrites the -EIO with 0: the batch reports success instead of the first
failure. -/
theorem c4_error_slot_not_short_circuited :
    (fun n => if n = 0 then (-5 : Int) else 1) 0 = -5 ∧
    (imx283_standby_cancel (fun n => if n = 0 then (-5 : Int) else 1) []
        imx283_freq_6.regs mipi_data_rate_720Mbps).1 = 0 ∧
    (imx283_standby_cancel (fun n => if n = 0 then (-5 : Int) else 1) []
        imx283_freq_6.regs mipi_data_rate_720Mbps).2.length = 27 := by
  refine ⟨by decide, by decide, by decide⟩

/-- C5 evaluation: on a VBlank write the handler clamps the uninitialized
local current_exposure, not the stored exposure control value, and
reports the clamp of that garbage to v4l2_ctrl_modify_range: with mode 0,
hmax 900 and vblank 336 the reported exposure is 4 for garbage 0 but 3988
for garbage 1000000.  The rest of the claimed order does hold on this
path: bounds are recomputed from the new VMAX before any register write,
no bus write happens when unpowered, and exactly the VMAX write happens
when powered. -/
theorem c5_vblank_clamps_uninitialized_exposure :
    (imx283_set_ctrl_vblank (fun _ => 1) [] imx283_mode_0 900 336 0
        false).1 = (4000, 4, 3988, 4) ∧
    (imx283_set_ctrl_vblank (fun _ => 1) [] imx283_mode_0 900 336 1000000
        false).1 = (4000, 4, 3988, 3988) ∧
    (4 : Nat) ≠ 3988 ∧
    (imx283_set_ctrl_vblank (fun _ => 1) [] imx283_mode_0 900 336 0
        false).2 = [] ∧
    (imx283_set_ctrl_vblank (fun _ => 1) [] imx283_mode_0 900 336 0
        true).2.length = 1 := by
  refine ⟨by decide, by decide, by decide, by decide, by decide⟩

/-- C8 evaluation at the failing input: starting from Standby with mode 0,
the 6 MHz profile and the default 1440 Mbps link table, inject an -EIO
failure into transaction 17, the Y_OUT_SIZE write of the output-geometry
step, with the control-handler replay succeeding.  The sequence is not
aborted: all 27 transactions reach the bus, the final assignment
ret = v4l2_ctrl_handler_setup(...) discards the stored -EIO, the caller
receives 0 and the streaming flag becomes true.  The redundant-start
half of the claim does hold: enabling while already streaming is a no-op
returning 0. -/
theorem c8_start_failure_not_aborted :
    (fun n => if n = 17 then (-5 : Int) else 1) 17 = -5 ∧
    (imx283_set_stream (fun n => if n = 17 then (-5 : Int) else 1)
        ⟨false, []⟩ imx283_mode_0 imx283_freq_6.regs mipi_data_rate_1440Mbps
        0 0 true).1 = 0 ∧
    (imx283_set_stream (fun n => if n = 17 then (-5 : Int) else 1)
        ⟨false, []⟩ imx283_mode_0 imx283_freq_6.regs mipi_data_rate_1440Mbps
        0 0 true).2.streaming = true ∧
    (imx283_set_stream (fun n => if n = 17 then (-5 : Int) else 1)
        ⟨false, []⟩ imx283_mode_0 imx283_freq_6.regs mipi_data_rate_1440Mbps
        0 0 true).2.bus.length = 27 ∧
    imx283_set_stream (fun _ => 1) ⟨true, []⟩ imx283_mode_0
        imx283_freq_6.regs mipi_data_rate_1440Mbps 0 0 true
      = (0, ⟨true, []⟩) := by
  refine ⟨by decide, by decide, by decide, by decide, by decide⟩
